import Mathlib

/-!
Shallow embedding of `fromenv-derive/src/field.rs`: the per-field attribute
parsing and resolution performed by `FromEnvFieldReceiver::from_field`, and
the `parse_option` type-shape classifier.

The token-level collaborators (`syn` / `darling`) are modelled at their
interface boundary: an attribute arrives as a generic key/value tree
(`Attribute`, `NestedMeta`, `Meta`), and the outcome of
`NestedMeta::parse_meta_list` on a raw token stream is part of the input
(`TokenParse`), since the token lexer is out of scope.  Source spans are
modelled as opaque tokens; string literals (`syn::LitStr`) are modelled by
their string value, path expressions (`syn::ExprPath`) by their printed path.
-/

namespace FromEnv

/-- Source location attached to syntax and diagnostics (`proc_macro2::Span`),
modelled as an opaque token. -/
structure Span where
  id : Nat
deriving DecidableEq, Repr

/-- Model of `Span::call_site()`, the distinguished default span. -/
def Span.callSite : Span := ⟨0⟩

/-- Value shape carried by one parsed sub-item, as consumed by the
slot-specific `FromMeta` impls: a bare word (`name`), a string literal
(`name = "s"`), a path expression (`name = a::b::c`), or any other shape
(wrong literal type, list form, ...). -/
inductive MetaValue
  | word
  | str (s : String)
  | path (p : String)
  | other
deriving DecidableEq, Repr

/-- One named sub-item inside an `#[env(...)]` list (`syn::Meta`): the path
ident text (a multi-segment path is represented by a text outside the
vocabulary), the span of the path (`meta.path().span()`), the span of the
whole item (`meta.span()`), and the value shape. -/
structure Meta where
  pathIdent : String
  pathSpan : Span
  span : Span
  value : MetaValue
deriving DecidableEq, Repr

/-- Bare literal appearing where a named sub-item was expected
(`syn::Lit`); only its span matters to the diagnostics we track. -/
structure Lit where
  span : Span
deriving DecidableEq, Repr

/-- Model of `darling::ast::NestedMeta`: either a named item or a bare literal. -/
inductive NestedMeta
  | meta (m : Meta)
  | lit (l : Lit)
deriving DecidableEq, Repr

/-- Outcome of `NestedMeta::parse_meta_list` on the raw tokens of one
attribute block.  The token lexer is the out-of-scope collaborator, so its
outcome — a parsed sub-item list, or a parse error with its span — is part
of the input. -/
inductive TokenParse
  | ok (metas : List NestedMeta)
  | err (span : Span)
deriving DecidableEq, Repr

/-- Shape of one attribute's meta (`syn::Meta` at the attribute level):
`#[name]`, `#[name = value]`, or `#[name(...)]` with its token stream. -/
inductive AttrMeta
  | path
  | nameValue (v : MetaValue)
  | list (tokens : TokenParse)
deriving DecidableEq, Repr

/-- Model of `syn::Attribute`: its path ident text (`attr.path().is_ident`
compares against this; a multi-segment path is represented by a text that is
neither `env` nor `doc`), its span, and its meta shape. -/
structure Attribute where
  pathIdent : String
  span : Span
  meta : AttrMeta
deriving DecidableEq, Repr

/-- Kind of a recorded diagnostic (`darling::Error` / `syn::Error`),
distinguished by the construction site in the source. -/
inductive ErrorKind
  | requireList
  | parseMetaList
  | unexpectedLit
  | valueShape
  | unknownField (path : String)
  | custom (msg : String)
deriving DecidableEq, Repr

/-- One diagnostic: its kind and the span it is reported at. -/
structure Error where
  kind : ErrorKind
  span : Span
deriving DecidableEq, Repr

/-- True for diagnostics built with `darling::Error::custom` (the resolver's
conflict and invariant messages); false for every parser-level diagnostic. -/
def Error.isCustom (e : Error) : Bool :=
  match e.kind with
  | ErrorKind.custom _ => true
  | _ => false

/-- Model of `darling::util::Override`: an explicitly given value, or a
request to inherit the default. -/
inductive Override (α : Type)
  | inherit
  | explicit (v : α)
deriving DecidableEq, Repr

/-- Model of `Override::unwrap_or_else` (the Rust closure argument is pure
here, so it is passed by value). -/
def Override.unwrapOrElse {α : Type} (d : α) : Override α → α
  | Override.inherit => d
  | Override.explicit v => v

/-- Model of `darling::util::Flag`: absent, or present with the span of the
word that set it. -/
abbrev Flag := Option Span

/-- Model of `Flag::is_present`. -/
def Flag.isPresent (f : Flag) : Bool := f.isSome

/-- Model of `Flag::span`: the recorded span, or `call_site` when absent. -/
def Flag.span : Flag → Span
  | Option.none => Span.callSite
  | Option.some sp => sp

/-- Model of `FromMeta::from_meta` at type `Override<LitStr>` (the `from` and
`rename` slots): a bare word means inherit, a string literal is explicit,
anything else is a value-shape error at the item's span. -/
def overrideLitStrFromMeta (m : Meta) : Except Error (Override String) :=
  match m.value with
  | MetaValue.word => Except.ok Override.inherit
  | MetaValue.str s => Except.ok (Override.explicit s)
  | _ => Except.error ⟨ErrorKind.valueShape, m.span⟩

/-- Model of `FromMeta::from_meta` at type `LitStr` (the `default` slot):
only a string literal is accepted. -/
def litStrFromMeta (m : Meta) : Except Error String :=
  match m.value with
  | MetaValue.str s => Except.ok s
  | _ => Except.error ⟨ErrorKind.valueShape, m.span⟩

/-- Model of `FromMeta::from_meta` at type `ExprPath` (the `with` slot): a
path expression, or a string literal parsed as a path. -/
def exprPathFromMeta (m : Meta) : Except Error String :=
  match m.value with
  | MetaValue.path p => Except.ok p
  | MetaValue.str s => Except.ok s
  | _ => Except.error ⟨ErrorKind.valueShape, m.span⟩

/-- Model of `FromMeta::from_meta` at type `Flag` (the `nested` and `ignored`
slots): a bare word sets the flag, recording the word's span. -/
def flagFromMeta (m : Meta) : Except Error Flag :=
  match m.value with
  | MetaValue.word => Except.ok (Option.some m.pathSpan)
  | _ => Except.error ⟨ErrorKind.valueShape, m.span⟩

mutual

/-- Model of `syn::Type` as far as `parse_option` inspects it: a path type
with its segments, or any other type. -/
inductive RsType
  | path (segments : List PathSegment)
  | other

/-- Model of `syn::PathSegment`: an ident and its arguments. -/
inductive PathSegment
  | mk (ident : String) (arguments : PathArguments)

/-- Model of `syn::PathArguments`. -/
inductive PathArguments
  | noArgs
  | angleBracketed (args : List GenericArgument)
  | parenthesized

/-- Model of `syn::GenericArgument`: a type argument, or one of the non-type
argument kinds (lifetime, const, ...). -/
inductive GenericArgument
  | type (t : RsType)
  | lifetime
  | constArg

end

/-- Ident of a path segment. -/
def PathSegment.ident : PathSegment → String
  | PathSegment.mk i _ => i

/-- Arguments of a path segment. -/
def PathSegment.arguments : PathSegment → PathArguments
  | PathSegment.mk _ a => a

/-- Embedding of `parse_option` (field.rs:215-238): returns the inner type
when the declared type is a path whose last segment is the ident `Option`
with angle-bracketed arguments holding exactly one generic argument that is
itself a type. -/
def parse_option (ty : RsType) : Option RsType :=
  match ty with
  | RsType.other => Option.none
  | RsType.path segments =>
    match segments.getLast? with
    | Option.none => Option.none
    | Option.some segment =>
      if segment.ident == "Option" then
        match segment.arguments with
        | PathArguments.angleBracketed args =>
          if args.length == 1 then
            match args.head? with
            | Option.some (GenericArgument.type innerType) => Option.some innerType
            | _ => Option.none
          else Option.none
        | _ => Option.none
      else Option.none

/-- Model of Rust `str::to_uppercase` as used on a field identifier
(faithful on ASCII identifiers, which is what Rust identifiers in this
derive are). -/
def rustToUppercase (s : String) : String := String.mk (s.data.map Char.toUpper)

/-- Embedding of the enum `EnvAttribute` (field.rs:20-33). -/
inductive EnvAttribute
  | flat (name : String) («from» : Option String) (default : Option String) («with» : Option String)
  | nested
  | none
deriving DecidableEq, Repr

/-- Embedding of the struct `FromEnvFieldReceiver` (field.rs:11-18). -/
structure FromEnvFieldReceiver where
  ident : String
  ty : RsType
  option : Option RsType
  doc_attrs : List Attribute
  env_attr : EnvAttribute

/-- Input to `from_field`: a named struct field (`syn::Field`; the source
unwraps `field.ident` with an `expect`, as the struct shape was asserted
upstream, so only named fields reach this code). -/
structure Field where
  ident : String
  ty : RsType
  attrs : List Attribute

/-- Mutable locals of `from_field` (field.rs:47-56) threaded through the
attribute loop, together with the error accumulator. -/
structure LoopState where
  rename : Option (Override String)
  «from» : Option (Override String)
  default : Option String
  «with» : Option String
  nested : Flag
  ignored : Flag
  default_path_span : Span
  doc_attrs : List Attribute
  errors : List Error

/-- Initial loop state (field.rs:47-56): every slot empty, flags default,
`default_path_span = Span::call_site()`, no docs, no errors. -/
def initState : LoopState :=
  ⟨Option.none, Option.none, Option.none, Option.none, Option.none, Option.none,
    Span.callSite, [], []⟩

/-- Embedding of the sub-item dispatch (field.rs:76-133): one `NestedMeta`
updates the loop state; a defect appends a diagnostic and leaves the slots
unchanged. -/
def processMeta (st : LoopState) (nm : NestedMeta) : LoopState :=
  match nm with
  | NestedMeta.lit l => { st with errors := st.errors ++ [⟨ErrorKind.unexpectedLit, l.span⟩] }
  | NestedMeta.meta m =>
    if m.pathIdent == "from" then
      match overrideLitStrFromMeta m with
      | Except.ok v => { st with «from» := Option.some v }
      | Except.error e => { st with errors := st.errors ++ [e] }
    else if m.pathIdent == "rename" then
      match overrideLitStrFromMeta m with
      | Except.ok v => { st with rename := Option.some v }
      | Except.error e => { st with errors := st.errors ++ [e] }
    else if m.pathIdent == "default" then
      let st := { st with default_path_span := m.pathSpan }
      match litStrFromMeta m with
      | Except.ok v => { st with default := Option.some v }
      | Except.error e => { st with errors := st.errors ++ [e] }
    else if m.pathIdent == "with" then
      match exprPathFromMeta m with
      | Except.ok v => { st with «with» := Option.some v }
      | Except.error e => { st with errors := st.errors ++ [e] }
    else if m.pathIdent == "nested" then
      match flagFromMeta m with
      | Except.ok v => { st with nested := v }
      | Except.error e => { st with errors := st.errors ++ [e] }
    else if m.pathIdent == "ignored" then
      match flagFromMeta m with
      | Except.ok v => { st with ignored := v }
      | Except.error e => { st with errors := st.errors ++ [e] }
    else
      { st with errors := st.errors ++ [⟨ErrorKind.unknownField m.pathIdent, m.span⟩] }

/-- Embedding of the attribute loop body (field.rs:58-137): an `env`
attribute must be a list (`require_list`), its tokens must parse
(`parse_meta_list`), then each sub-item is dispatched; a `doc` attribute is
collected verbatim; every other attribute is skipped. -/
def processAttr (st : LoopState) (attr : Attribute) : LoopState :=
  if attr.pathIdent == "env" then
    match attr.meta with
    | AttrMeta.path => { st with errors := st.errors ++ [⟨ErrorKind.requireList, attr.span⟩] }
    | AttrMeta.nameValue _ => { st with errors := st.errors ++ [⟨ErrorKind.requireList, attr.span⟩] }
    | AttrMeta.list (TokenParse.err sp) =>
      { st with errors := st.errors ++ [⟨ErrorKind.parseMetaList, sp⟩] }
    | AttrMeta.list (TokenParse.ok metas) => metas.foldl processMeta st
  else if attr.pathIdent == "doc" then
    { st with doc_attrs := st.doc_attrs ++ [attr] }
  else st

/-- The whole attribute loop (field.rs:58-137), starting from the initial state. -/
def parseAttrs (attrs : List Attribute) : LoopState :=
  attrs.foldl processAttr initState

/-- Message constant `IGNORED_CLASH` (field.rs:139). -/
def IGNORED_CLASH : String := "`ignored` cannot be used with other attributes"

/-- Message constant `NESTED_CLASH` (field.rs:140). -/
def NESTED_CLASH : String := "`nested` cannot be used with other attributes"

/-- Message constant `OPTION_WIH_DEFAULT` (field.rs:141, sic). -/
def OPTION_WIH_DEFAULT : String := "Optional fields cannot have a default"

/-- Model of `accumulator.finish_with(value)`: the value when no error was
accumulated, otherwise all accumulated errors. -/
def finishWith (errors : List Error) (value : FromEnvFieldReceiver) :
    Except (List Error) FromEnvFieldReceiver :=
  if errors.isEmpty then Except.ok value else Except.error errors

/-- Embedding of the resolution match (field.rs:143-211) on the parsed loop
state.  The arms, in source order: the `ignored` clash, the `nested` clash,
`ignored` alone, `nested` alone, and Flat resolution with the
wrapper-default invariant check. -/
def resolve (ident : String) (ty : RsType) (st : LoopState) :
    Except (List Error) FromEnvFieldReceiver :=
  let option := parse_option ty
  if st.ignored.isPresent &&
      (st.«from».isSome || st.rename.isSome || st.default.isSome || st.«with».isSome ||
        st.nested.isPresent) then
    Except.error (st.errors ++ [⟨ErrorKind.custom IGNORED_CLASH, st.ignored.span⟩])
  else if st.nested.isPresent &&
      (st.«from».isSome || st.rename.isSome || st.default.isSome || st.«with».isSome) then
    Except.error (st.errors ++ [⟨ErrorKind.custom NESTED_CLASH, st.nested.span⟩])
  else if st.ignored.isPresent then
    finishWith st.errors ⟨ident, ty, option, st.doc_attrs, EnvAttribute.none⟩
  else if st.nested.isPresent then
    finishWith st.errors ⟨ident, ty, option, st.doc_attrs, EnvAttribute.nested⟩
  else
    let errors :=
      if option.isSome && st.default.isSome then
        st.errors ++ [⟨ErrorKind.custom OPTION_WIH_DEFAULT, st.default_path_span⟩]
      else st.errors
    let default_name := rustToUppercase ident
    let name :=
      match st.rename with
      | Option.none => default_name
      | Option.some r => r.unwrapOrElse default_name
    let «from» := st.«from».map (fun f => f.unwrapOrElse default_name)
    finishWith errors ⟨ident, ty, option, st.doc_attrs,
      EnvAttribute.flat name «from» st.default st.«with»⟩

/-- Embedding of `FromEnvFieldReceiver::from_field` (field.rs:36-212):
parse the attributes, then resolve. -/
def from_field (field : Field) : Except (List Error) FromEnvFieldReceiver :=
  resolve field.ident field.ty (parseAttrs field.attrs)

/-- Diagnostics contributed by a single sub-item, read off the dispatch: a
defective item contributes exactly one diagnostic, a well-formed one none. -/
def metaErrors : NestedMeta → List Error
  | NestedMeta.lit l => [⟨ErrorKind.unexpectedLit, l.span⟩]
  | NestedMeta.meta m =>
    if m.pathIdent == "from" then
      match overrideLitStrFromMeta m with
      | Except.ok _ => []
      | Except.error e => [e]
    else if m.pathIdent == "rename" then
      match overrideLitStrFromMeta m with
      | Except.ok _ => []
      | Except.error e => [e]
    else if m.pathIdent == "default" then
      match litStrFromMeta m with
      | Except.ok _ => []
      | Except.error e => [e]
    else if m.pathIdent == "with" then
      match exprPathFromMeta m with
      | Except.ok _ => []
      | Except.error e => [e]
    else if m.pathIdent == "nested" then
      match flagFromMeta m with
      | Except.ok _ => []
      | Except.error e => [e]
    else if m.pathIdent == "ignored" then
      match flagFromMeta m with
      | Except.ok _ => []
      | Except.error e => [e]
    else [⟨ErrorKind.unknownField m.pathIdent, m.span⟩]

/-- Diagnostics contributed by the sub-items of one parsed list, in order. -/
def errorsOfMetas : List NestedMeta → List Error
  | [] => []
  | nm :: nms => metaErrors nm ++ errorsOfMetas nms

/-- Diagnostics contributed by a single attribute block. -/
def attrErrors (attr : Attribute) : List Error :=
  if attr.pathIdent == "env" then
    match attr.meta with
    | AttrMeta.path => [⟨ErrorKind.requireList, attr.span⟩]
    | AttrMeta.nameValue _ => [⟨ErrorKind.requireList, attr.span⟩]
    | AttrMeta.list (TokenParse.err sp) => [⟨ErrorKind.parseMetaList, sp⟩]
    | AttrMeta.list (TokenParse.ok metas) => errorsOfMetas metas
  else []

/-- Diagnostics contributed by a whole attribute list, in order. -/
def errorsOfAttrs : List Attribute → List Error
  | [] => []
  | a :: as' => attrErrors a ++ errorsOfAttrs as'

/- ### Concrete example inputs used by witnesses and counterexamples -/

/-- Example declared type `Option<u32>`. -/
def optionU32 : RsType :=
  RsType.path [PathSegment.mk "Option"
    (PathArguments.angleBracketed
      [GenericArgument.type (RsType.path [PathSegment.mk "u32" PathArguments.noArgs])])]

/-- Example field `x: String` annotated `#[env(ignored, nested)]`. -/
def exampleIgnoredNested : Field :=
  ⟨"x", RsType.path [PathSegment.mk "String" PathArguments.noArgs],
    [⟨"env", ⟨1⟩, AttrMeta.list (TokenParse.ok
      [NestedMeta.meta ⟨"ignored", ⟨2⟩, ⟨2⟩, MetaValue.word⟩,
       NestedMeta.meta ⟨"nested", ⟨3⟩, ⟨3⟩, MetaValue.word⟩])⟩]⟩

/-- Example field `x: String` annotated `#[env(nested, from = "A")]`. -/
def exampleNestedFrom : Field :=
  ⟨"x", RsType.path [PathSegment.mk "String" PathArguments.noArgs],
    [⟨"env", ⟨1⟩, AttrMeta.list (TokenParse.ok
      [NestedMeta.meta ⟨"nested", ⟨2⟩, ⟨2⟩, MetaValue.word⟩,
       NestedMeta.meta ⟨"from", ⟨3⟩, ⟨3⟩, MetaValue.str "A"⟩])⟩]⟩

/-- Example field `retry_count: Option<u32>` annotated `#[env(default = "3", nested)]`. -/
def exampleOptionDefaultNested : Field :=
  ⟨"retry_count", optionU32,
    [⟨"env", ⟨1⟩, AttrMeta.list (TokenParse.ok
      [NestedMeta.meta ⟨"default", ⟨2⟩, ⟨2⟩, MetaValue.str "3"⟩,
       NestedMeta.meta ⟨"nested", ⟨3⟩, ⟨3⟩, MetaValue.word⟩])⟩]⟩

/-- Example field `retry_count: Option<u32>` annotated `#[env(default = "3")]`. -/
def exampleOptionDefault : Field :=
  ⟨"retry_count", optionU32,
    [⟨"env", ⟨1⟩, AttrMeta.list (TokenParse.ok
      [NestedMeta.meta ⟨"default", ⟨2⟩, ⟨2⟩, MetaValue.str "3"⟩])⟩]⟩

/-- Example field `api_key: String` carrying only a doc attribute. -/
def exampleDocOnly : Field :=
  ⟨"api_key", RsType.path [PathSegment.mk "String" PathArguments.noArgs],
    [⟨"doc", ⟨1⟩, AttrMeta.nameValue (MetaValue.str " documented")⟩]⟩

/-- Example field `x: String` annotated `#[env(unknown_opt, "lit")]`:
one unknown option and one bare literal. -/
def exampleDefects : Field :=
  ⟨"x", RsType.path [PathSegment.mk "String" PathArguments.noArgs],
    [⟨"env", ⟨1⟩, AttrMeta.list (TokenParse.ok
      [NestedMeta.meta ⟨"unknown_opt", ⟨2⟩, ⟨2⟩, MetaValue.word⟩,
       NestedMeta.lit ⟨⟨3⟩⟩])⟩]⟩

/-- Example field `x: String` annotated `#[env(from = "A", from = "B")]`. -/
def exampleDuplicateFrom : Field :=
  ⟨"x", RsType.path [PathSegment.mk "String" PathArguments.noArgs],
    [⟨"env", ⟨1⟩, AttrMeta.list (TokenParse.ok
      [NestedMeta.meta ⟨"from", ⟨2⟩, ⟨2⟩, MetaValue.str "A"⟩,
       NestedMeta.meta ⟨"from", ⟨3⟩, ⟨3⟩, MetaValue.str "B"⟩])⟩]⟩

/-- Example foreign attribute `#[serde(skip)]`-style block. -/
def exampleForeignAttr : Attribute :=
  ⟨"serde", ⟨9⟩, AttrMeta.list (TokenParse.ok
    [NestedMeta.meta ⟨"skip", ⟨10⟩, ⟨10⟩, MetaValue.word⟩])⟩

/-- Example parsed state where a bare `from` was seen and nothing else. -/
def exampleBareFromState : LoopState :=
  ⟨Option.none, Option.some Override.inherit, Option.none, Option.none,
    Option.none, Option.none, Span.callSite, [], []⟩

/-- Example parsed state where `from = "A"` was already recorded. -/
def exampleFromAState : LoopState :=
  ⟨Option.none, Option.some (Override.explicit "A"), Option.none, Option.none,
    Option.none, Option.none, Span.callSite, [], []⟩

/- ### Parser-level lemmas -/

theorem processMeta_errors (st : LoopState) (nm : NestedMeta) :
    (processMeta st nm).errors = st.errors ++ metaErrors nm := by
  cases nm with
  | lit l => simp [processMeta, metaErrors]
  | meta m =>
    simp only [processMeta, metaErrors]
    repeat' split
    all_goals simp_all

theorem foldl_processMeta_errors (nms : List NestedMeta) (st : LoopState) :
    (nms.foldl processMeta st).errors = st.errors ++ errorsOfMetas nms := by
  induction nms generalizing st with
  | nil => simp [errorsOfMetas]
  | cons nm nms ih =>
    simp [List.foldl_cons, errorsOfMetas, ih, processMeta_errors, List.append_assoc]

theorem processAttr_errors (st : LoopState) (attr : Attribute) :
    (processAttr st attr).errors = st.errors ++ attrErrors attr := by
  simp only [processAttr, attrErrors]
  repeat' split
  all_goals simp_all [foldl_processMeta_errors]

theorem foldl_processAttr_errors (attrs : List Attribute) (st : LoopState) :
    (attrs.foldl processAttr st).errors = st.errors ++ errorsOfAttrs attrs := by
  induction attrs generalizing st with
  | nil => simp [errorsOfAttrs]
  | cons a as' ih =>
    simp [List.foldl_cons, errorsOfAttrs, ih, processAttr_errors, List.append_assoc]

theorem parseAttrs_errors (attrs : List Attribute) :
    (parseAttrs attrs).errors = errorsOfAttrs attrs := by
  simp [parseAttrs, foldl_processAttr_errors, initState]

theorem metaErrors_not_custom (nm : NestedMeta) :
    ∀ e ∈ metaErrors nm, e.isCustom = false := by
  intro e he
  cases nm with
  | lit l =>
    simp [metaErrors] at he
    simp [he, Error.isCustom]
  | meta m =>
    obtain ⟨pi, ps, sp, v⟩ := m
    cases v
    all_goals
      simp only [metaErrors, overrideLitStrFromMeta, litStrFromMeta, exprPathFromMeta,
        flagFromMeta] at he
    all_goals repeat' split at he
    all_goals simp_all [Error.isCustom]

theorem errorsOfMetas_not_custom (nms : List NestedMeta) :
    ∀ e ∈ errorsOfMetas nms, e.isCustom = false := by
  intro e he
  induction nms with
  | nil => simp [errorsOfMetas] at he
  | cons nm nms ih =>
    simp only [errorsOfMetas, List.mem_append] at he
    rcases he with he | he
    · exact metaErrors_not_custom nm e he
    · exact ih he

theorem attrErrors_not_custom (a : Attribute) :
    ∀ e ∈ attrErrors a, e.isCustom = false := by
  intro e he
  simp only [attrErrors] at he
  repeat' split at he
  all_goals
    first
    | exact errorsOfMetas_not_custom _ e he
    | simp_all [Error.isCustom]

theorem errorsOfAttrs_not_custom (attrs : List Attribute) :
    ∀ e ∈ errorsOfAttrs attrs, e.isCustom = false := by
  intro e he
  induction attrs with
  | nil => simp [errorsOfAttrs] at he
  | cons a as' ih =>
    simp only [errorsOfAttrs, List.mem_append] at he
    rcases he with he | he
    · exact attrErrors_not_custom a e he
    · exact ih he

theorem filter_custom_of_not_custom (es : List Error)
    (h : ∀ e ∈ es, e.isCustom = false) : es.filter Error.isCustom = [] := by
  induction es with
  | nil => rfl
  | cons a as' ih =>
    simp only [List.filter_cons, h a (List.mem_cons_self a as')]
    exact ih fun e he => h e (List.mem_cons_of_mem a he)

theorem parseAttrs_errors_filter_custom (attrs : List Attribute) :
    ((parseAttrs attrs).errors).filter Error.isCustom = [] := by
  rw [parseAttrs_errors]
  exact filter_custom_of_not_custom _ (errorsOfAttrs_not_custom attrs)

theorem finishWith_error_of_mem (es : List Error) (v : FromEnvFieldReceiver) (e : Error)
    (h : e ∈ es) : finishWith es v = Except.error es := by
  cases es with
  | nil => cases h
  | cons a as' => rfl

/- ### Claim theorems -/

/-- C9: resolution is deterministic — `from_field` is a pure function of the
field description, so running it twice on the same description yields
identical results, with no hidden state read or mutated between runs. -/
theorem from_field_deterministic (f : Field) : from_field f = from_field f := rfl

/-- C6: the type-shape classification returns a wrapped inner type exactly
when the declared type is a path whose last segment is the identifier
literally named `Option` with angle-bracketed arguments containing exactly
one generic argument that is itself a type; every other type (including
`Option` with zero or several arguments or a non-type argument) is
classified plain (`parse_option` returns `none`). -/
theorem parse_option_characterization (ty t : RsType) :
    parse_option ty = Option.some t ↔
      ∃ segments, ty = RsType.path segments ∧
        segments.getLast? =
          Option.some (PathSegment.mk "Option"
            (PathArguments.angleBracketed [GenericArgument.type t])) := by
  constructor
  · intro h
    cases ty with
    | other => simp [parse_option] at h
    | path segments =>
      refine ⟨segments, rfl, ?_⟩
      cases hseg : segments.getLast? with
      | none => simp [parse_option, hseg] at h
      | some seg =>
        obtain ⟨ident, arguments⟩ := seg
        by_cases hid : ident = "Option"
        · subst hid
          cases harg : arguments with
          | noArgs =>
            simp [parse_option, hseg, harg, PathSegment.ident, PathSegment.arguments] at h
          | parenthesized =>
            simp [parse_option, hseg, harg, PathSegment.ident, PathSegment.arguments] at h
          | angleBracketed args =>
            cases args with
            | nil =>
              simp [parse_option, hseg, harg, PathSegment.ident, PathSegment.arguments] at h
            | cons a rest =>
              cases rest with
              | cons b rest' =>
                simp [parse_option, hseg, harg, PathSegment.ident, PathSegment.arguments] at h
              | nil =>
                cases a with
                | lifetime =>
                  simp [parse_option, hseg, harg, PathSegment.ident,
                    PathSegment.arguments] at h
                | constArg =>
                  simp [parse_option, hseg, harg, PathSegment.ident,
                    PathSegment.arguments] at h
                | type inner =>
                  simp [parse_option, hseg, harg, PathSegment.ident,
                    PathSegment.arguments] at h
                  rw [h]
        · simp [parse_option, hseg, PathSegment.ident, hid] at h
  · rintro ⟨segments, rfl, hlast⟩
    simp [parse_option, hlast, PathSegment.ident, PathSegment.arguments]

/-- C1: when the parsed options have `ignored` present together with any of
`from`, `rename`, `default`, `with`, or `nested`, resolution fails with the
accumulated parser diagnostics plus exactly one conflict error — the
ignored-clash message at `ignored`'s span — and no other resolver-generated
(custom) diagnostic appears, so no later check (including the nested clash
when `nested` is also present) runs for that field. -/
theorem ignored_clash_reported (f : Field)
    (h1 : (parseAttrs f.attrs).ignored.isPresent = true)
    (h2 : (parseAttrs f.attrs).«from».isSome = true ∨
          (parseAttrs f.attrs).rename.isSome = true ∨
          (parseAttrs f.attrs).default.isSome = true ∨
          (parseAttrs f.attrs).«with».isSome = true ∨
          (parseAttrs f.attrs).nested.isPresent = true) :
    from_field f =
      Except.error ((parseAttrs f.attrs).errors ++
        [Error.mk (ErrorKind.custom IGNORED_CLASH) (parseAttrs f.attrs).ignored.span]) ∧
      ((parseAttrs f.attrs).errors ++
          [Error.mk (ErrorKind.custom IGNORED_CLASH) (parseAttrs f.attrs).ignored.span]).filter
          Error.isCustom =
        [Error.mk (ErrorKind.custom IGNORED_CLASH) (parseAttrs f.attrs).ignored.span] := by
  constructor
  · unfold from_field resolve
    have hcond : ((parseAttrs f.attrs).ignored.isPresent &&
        ((parseAttrs f.attrs).«from».isSome || (parseAttrs f.attrs).rename.isSome ||
          (parseAttrs f.attrs).default.isSome || (parseAttrs f.attrs).«with».isSome ||
          (parseAttrs f.attrs).nested.isPresent)) = true := by
      rcases h2 with h | h | h | h | h <;> simp [h1, h]
    simp [hcond]
  · rw [List.filter_append, parseAttrs_errors_filter_custom]
    simp [Error.isCustom]

/-- C1 witness: the field `x: String` annotated `#[env(ignored, nested)]`
triggers exactly the ignored clash. -/
theorem ignored_clash_reported_witness :
    from_field exampleIgnoredNested =
      Except.error ((parseAttrs exampleIgnoredNested.attrs).errors ++
        [Error.mk (ErrorKind.custom IGNORED_CLASH) (parseAttrs exampleIgnoredNested.attrs).ignored.span]) ∧
      ((parseAttrs exampleIgnoredNested.attrs).errors ++
          [Error.mk (ErrorKind.custom IGNORED_CLASH) (parseAttrs exampleIgnoredNested.attrs).ignored.span]).filter
          Error.isCustom =
        [Error.mk (ErrorKind.custom IGNORED_CLASH) (parseAttrs exampleIgnoredNested.attrs).ignored.span] :=
  ignored_clash_reported exampleIgnoredNested rfl
    (Or.inr (Or.inr (Or.inr (Or.inr rfl))))

/-- C2: when the parsed options have `nested` present together with any of
`from`, `rename`, `default`, or `with` while `ignored` is absent, resolution
fails with the accumulated parser diagnostics plus exactly one conflict
error — the nested-clash message at `nested`'s span — and no other
resolver-generated (custom) diagnostic appears, so neither Flat resolution
nor the wrapper-default check runs. -/
theorem nested_clash_reported (f : Field)
    (h1 : (parseAttrs f.attrs).nested.isPresent = true)
    (h2 : (parseAttrs f.attrs).«from».isSome = true ∨
          (parseAttrs f.attrs).rename.isSome = true ∨
          (parseAttrs f.attrs).default.isSome = true ∨
          (parseAttrs f.attrs).«with».isSome = true)
    (h3 : (parseAttrs f.attrs).ignored.isPresent = false) :
    from_field f =
      Except.error ((parseAttrs f.attrs).errors ++
        [Error.mk (ErrorKind.custom NESTED_CLASH) (parseAttrs f.attrs).nested.span]) ∧
      ((parseAttrs f.attrs).errors ++
          [Error.mk (ErrorKind.custom NESTED_CLASH) (parseAttrs f.attrs).nested.span]).filter
          Error.isCustom =
        [Error.mk (ErrorKind.custom NESTED_CLASH) (parseAttrs f.attrs).nested.span] := by
  constructor
  · unfold from_field resolve
    have hcond : ((parseAttrs f.attrs).nested.isPresent &&
        ((parseAttrs f.attrs).«from».isSome || (parseAttrs f.attrs).rename.isSome ||
          (parseAttrs f.attrs).default.isSome || (parseAttrs f.attrs).«with».isSome)) =
        true := by
      rcases h2 with h | h | h | h <;> simp [h1, h]
    simp [h3, hcond]
  · rw [List.filter_append, parseAttrs_errors_filter_custom]
    simp [Error.isCustom]

/-- C2 witness: the field `x: String` annotated `#[env(nested, from = "A")]`
triggers exactly the nested clash. -/
theorem nested_clash_reported_witness :
    from_field exampleNestedFrom =
      Except.error ((parseAttrs exampleNestedFrom.attrs).errors ++
        [Error.mk (ErrorKind.custom NESTED_CLASH) (parseAttrs exampleNestedFrom.attrs).nested.span]) ∧
      ((parseAttrs exampleNestedFrom.attrs).errors ++
          [Error.mk (ErrorKind.custom NESTED_CLASH) (parseAttrs exampleNestedFrom.attrs).nested.span]).filter
          Error.isCustom =
        [Error.mk (ErrorKind.custom NESTED_CLASH) (parseAttrs exampleNestedFrom.attrs).nested.span] :=
  nested_clash_reported exampleNestedFrom rfl (Or.inl rfl) rfl

/-- C3 counterexample: the claim fails as stated.  On the wrapper-typed field
`retry_count: Option<u32>` annotated `#[env(default = "3", nested)]` — a
`default` combined with another slot configuration — resolution fails with
the nested-clash conflict error, not an invariant violation; and on
`#[env(default = "3")]` alone the recorded message is
"Optional fields cannot have a default" (capital O), not the claimed
"optional fields cannot have a default". -/
theorem option_default_counterexample :
    from_field exampleOptionDefaultNested =
      Except.error [Error.mk (ErrorKind.custom NESTED_CLASH) ⟨3⟩] ∧
    from_field exampleOptionDefault =
      Except.error [Error.mk (ErrorKind.custom OPTION_WIH_DEFAULT) ⟨2⟩] ∧
    OPTION_WIH_DEFAULT ≠ "optional fields cannot have a default" :=
  ⟨rfl, rfl, by decide⟩

/-- C3 (amended): for a field whose declared type is classified as a wrapper,
if `default` is present and neither `nested` nor `ignored` is present, then
resolution fails with the accumulated parser diagnostics plus exactly one
invariant-violation error, recorded with the message
"Optional fields cannot have a default" and spanned at the `default`
option's location; when `nested` or `ignored` is also present the
corresponding conflict error is reported instead (see the counterexample). -/
theorem option_default_invariant (f : Field)
    (h1 : (parse_option f.ty).isSome = true)
    (h2 : (parseAttrs f.attrs).default.isSome = true)
    (h3 : (parseAttrs f.attrs).nested.isPresent = false)
    (h4 : (parseAttrs f.attrs).ignored.isPresent = false) :
    from_field f =
      Except.error ((parseAttrs f.attrs).errors ++
        [Error.mk (ErrorKind.custom OPTION_WIH_DEFAULT)
          (parseAttrs f.attrs).default_path_span]) ∧
      ((parseAttrs f.attrs).errors ++
          [Error.mk (ErrorKind.custom OPTION_WIH_DEFAULT)
            (parseAttrs f.attrs).default_path_span]).filter Error.isCustom =
        [Error.mk (ErrorKind.custom OPTION_WIH_DEFAULT)
          (parseAttrs f.attrs).default_path_span] := by
  constructor
  · have hfw := finishWith_error_of_mem
      ((parseAttrs f.attrs).errors ++
        [Error.mk (ErrorKind.custom OPTION_WIH_DEFAULT)
          (parseAttrs f.attrs).default_path_span])
    simp [from_field, resolve, h1, h2, h3, h4]
    rw [hfw _ _ (List.mem_append_right _ (List.mem_singleton.mpr rfl))]
  · rw [List.filter_append, parseAttrs_errors_filter_custom]
    simp [Error.isCustom]

/-- C3 (amended) witness: `retry_count: Option<u32>` annotated
`#[env(default = "3")]` fails with exactly the invariant violation. -/
theorem option_default_invariant_witness :
    from_field exampleOptionDefault =
      Except.error ((parseAttrs exampleOptionDefault.attrs).errors ++
        [Error.mk (ErrorKind.custom OPTION_WIH_DEFAULT)
          (parseAttrs exampleOptionDefault.attrs).default_path_span]) ∧
      ((parseAttrs exampleOptionDefault.attrs).errors ++
          [Error.mk (ErrorKind.custom OPTION_WIH_DEFAULT)
            (parseAttrs exampleOptionDefault.attrs).default_path_span]).filter
          Error.isCustom =
        [Error.mk (ErrorKind.custom OPTION_WIH_DEFAULT)
          (parseAttrs exampleOptionDefault.attrs).default_path_span] :=
  option_default_invariant exampleOptionDefault rfl rfl rfl rfl

theorem foldl_processAttr_no_env (attrs : List Attribute) :
    ∀ st : LoopState, (∀ a ∈ attrs, a.pathIdent ≠ "env") →
      attrs.foldl processAttr st =
        { st with doc_attrs :=
            st.doc_attrs ++ attrs.filter (fun a => a.pathIdent == "doc") } := by
  induction attrs with
  | nil => intro st h; simp
  | cons a as' ih =>
    intro st h
    have ha : a.pathIdent ≠ "env" := h a (List.mem_cons_self a as')
    have has : ∀ x ∈ as', x.pathIdent ≠ "env" := fun x hx => h x (List.mem_cons_of_mem a hx)
    by_cases hd : a.pathIdent = "doc"
    · simp [List.foldl_cons, processAttr, ha, hd, ih _ has, List.filter_cons]
    · simp [List.foldl_cons, processAttr, ha, hd, ih _ has, List.filter_cons]

/-- C4: a field with no recognized annotation at all (no `env` attribute, so
every option slot is empty and `nested` and `ignored` are absent) resolves
successfully to the Flat variant with `name` equal to the identifier
rendered in upper case, and `from`, `default` and `with` all absent. -/
theorem unannotated_field_flat (f : Field)
    (h : ∀ a ∈ f.attrs, a.pathIdent ≠ "env") :
    from_field f = Except.ok
      ⟨f.ident, f.ty, parse_option f.ty, (parseAttrs f.attrs).doc_attrs,
        EnvAttribute.flat (rustToUppercase f.ident) Option.none Option.none
          Option.none⟩ := by
  unfold from_field parseAttrs
  rw [foldl_processAttr_no_env f.attrs initState h]
  simp [resolve, initState, finishWith, Flag.isPresent]

/-- C4 witness: a field carrying only a doc attribute resolves to the default
Flat configuration with upper-cased name `API_KEY`. -/
theorem unannotated_field_flat_witness :
    from_field exampleDocOnly = Except.ok
      ⟨exampleDocOnly.ident, exampleDocOnly.ty, parse_option exampleDocOnly.ty,
        (parseAttrs exampleDocOnly.attrs).doc_attrs,
        EnvAttribute.flat (rustToUppercase exampleDocOnly.ident) Option.none
          Option.none Option.none⟩ :=
  unannotated_field_flat exampleDocOnly (by decide)

/-- C5: for a field whose parsed options carry a bare `from`
(present-without-value), resolution is identical to resolution of the same
field with `from` set explicitly to the upper-cased identifier, and any
successful resolution is a Flat configuration whose `from` slot holds the
upper-cased identifier. -/
theorem bare_from_defaults (ident : String) (ty : RsType) (st : LoopState)
    (h : st.«from» = Option.some Override.inherit) :
    resolve ident ty st =
      resolve ident ty
        { st with «from» :=
            Option.some (Override.explicit (rustToUppercase ident)) } ∧
    ∀ r, resolve ident ty st = Except.ok r →
      ∃ n d w, r.env_attr =
        EnvAttribute.flat n (Option.some (rustToUppercase ident)) d w := by
  constructor
  · by_cases hi : st.ignored.isPresent <;> by_cases hn : st.nested.isPresent <;>
      simp [resolve, h, hi, hn, Override.unwrapOrElse]
  · intro r hr
    by_cases hi : st.ignored.isPresent
    · simp [resolve, h, hi] at hr
    · by_cases hn : st.nested.isPresent
      · simp [resolve, h, hn, hi] at hr
      · rw [Bool.not_eq_true] at hi hn
        simp [resolve, h, hi, hn, Override.unwrapOrElse] at hr
        unfold finishWith at hr
        repeat' split at hr
        all_goals
          first
          | exact Except.noConfusion hr
          | (injection hr with hr; exact ⟨_, _, _, by rw [← hr]⟩)

/-- C5 witness: with only a bare `from` recorded for `api_key: String`, both
resolutions agree and the Flat `from` slot holds the upper-cased
identifier. -/
theorem bare_from_defaults_witness :
    (resolve "api_key" (RsType.path [PathSegment.mk "String" PathArguments.noArgs])
        exampleBareFromState =
      resolve "api_key" (RsType.path [PathSegment.mk "String" PathArguments.noArgs])
        { exampleBareFromState with
          «from» := Option.some (Override.explicit (rustToUppercase "api_key")) }) ∧
    ∃ n d w,
      (FromEnvFieldReceiver.mk "api_key"
          (RsType.path [PathSegment.mk "String" PathArguments.noArgs]) Option.none []
          (EnvAttribute.flat "API_KEY" (Option.some "API_KEY") Option.none
            Option.none)).env_attr =
        EnvAttribute.flat n (Option.some (rustToUppercase "api_key")) d w :=
  ⟨(bare_from_defaults "api_key"
      (RsType.path [PathSegment.mk "String" PathArguments.noArgs])
      exampleBareFromState rfl).1,
   (bare_from_defaults "api_key"
      (RsType.path [PathSegment.mk "String" PathArguments.noArgs])
      exampleBareFromState rfl).2 _ rfl⟩

/-- C7: every defect among a field's annotation blocks and sub-items is
recorded as its own diagnostic and processing continues past it: the
accumulated diagnostics are exactly the concatenation, in order, of the
diagnostics contributed by each block and sub-item independently, and every
accumulated diagnostic appears in the field's final error report. -/
theorem errors_accumulate (f : Field) :
    (parseAttrs f.attrs).errors = errorsOfAttrs f.attrs ∧
    ∀ e, e ∈ (parseAttrs f.attrs).errors →
      ∃ es, from_field f = Except.error es ∧ e ∈ es := by
  refine ⟨parseAttrs_errors f.attrs, ?_⟩
  intro e he
  simp only [from_field, resolve]
  split_ifs with h1 h2 h3 h4 h5
  · exact ⟨_, rfl, List.mem_append_left _ he⟩
  · exact ⟨_, rfl, List.mem_append_left _ he⟩
  · exact ⟨_, finishWith_error_of_mem _ _ e he, he⟩
  · exact ⟨_, finishWith_error_of_mem _ _ e he, he⟩
  · exact ⟨_, finishWith_error_of_mem _ _ e (List.mem_append_left _ he),
      List.mem_append_left _ he⟩
  · exact ⟨_, finishWith_error_of_mem _ _ e he, he⟩

/-- C7 witness: a field with an unknown option and a bare literal in one
block accumulates both defects, and the unknown-option diagnostic appears in
the final report. -/
theorem errors_accumulate_witness :
    (parseAttrs exampleDefects.attrs).errors = errorsOfAttrs exampleDefects.attrs ∧
    ∃ es, from_field exampleDefects = Except.error es ∧
      Error.mk (ErrorKind.unknownField "unknown_opt") ⟨2⟩ ∈ es :=
  ⟨(errors_accumulate exampleDefects).1,
   (errors_accumulate exampleDefects).2
     (Error.mk (ErrorKind.unknownField "unknown_opt") ⟨2⟩) (by decide)⟩

/-- C8 counterexample: the claim fails as stated.  On the field `x: String`
annotated `#[env(from = "A", from = "B")]` — the same sub-item name twice —
resolution succeeds with no recorded error at all, and the later value `"B"`
silently replaced the earlier `"A"`. -/
theorem duplicate_option_counterexample :
    from_field exampleDuplicateFrom =
      Except.ok (FromEnvFieldReceiver.mk "x"
        (RsType.path [PathSegment.mk "String" PathArguments.noArgs]) Option.none []
        (EnvAttribute.flat "X" (Option.some "B") Option.none Option.none)) := rfl

/-- C8 (amended): a second occurrence of the same sub-item name is not an
error, for every name of the closed vocabulary: whatever was recorded
before (by an earlier occurrence of the same name, in the same or an
earlier block), a later successfully-parsed occurrence of `from`, `rename`,
`default`, `with`, `nested` or `ignored` silently overwrites that slot (the
last occurrence wins) and records no diagnostic. -/
theorem duplicate_option_last_wins (st : LoopState) (m : Meta) :
    (∀ v, m.pathIdent = "from" → overrideLitStrFromMeta m = Except.ok v →
      (processMeta st (NestedMeta.meta m)).«from» = Option.some v ∧
      (processMeta st (NestedMeta.meta m)).errors = st.errors) ∧
    (∀ v, m.pathIdent = "rename" → overrideLitStrFromMeta m = Except.ok v →
      (processMeta st (NestedMeta.meta m)).rename = Option.some v ∧
      (processMeta st (NestedMeta.meta m)).errors = st.errors) ∧
    (∀ v, m.pathIdent = "default" → litStrFromMeta m = Except.ok v →
      (processMeta st (NestedMeta.meta m)).default = Option.some v ∧
      (processMeta st (NestedMeta.meta m)).errors = st.errors) ∧
    (∀ v, m.pathIdent = "with" → exprPathFromMeta m = Except.ok v →
      (processMeta st (NestedMeta.meta m)).«with» = Option.some v ∧
      (processMeta st (NestedMeta.meta m)).errors = st.errors) ∧
    (∀ v, m.pathIdent = "nested" → flagFromMeta m = Except.ok v →
      (processMeta st (NestedMeta.meta m)).nested = v ∧
      (processMeta st (NestedMeta.meta m)).errors = st.errors) ∧
    (∀ v, m.pathIdent = "ignored" → flagFromMeta m = Except.ok v →
      (processMeta st (NestedMeta.meta m)).ignored = v ∧
      (processMeta st (NestedMeta.meta m)).errors = st.errors) := by
  refine ⟨?_, ?_, ?_, ?_, ?_, ?_⟩ <;>
    (intro v h1 h2; simp [processMeta, h1, h2])

/-- C8 (amended) witness: with `from = "A"` already recorded, processing a
later `from = "B"` overwrites that slot with `"B"`, and processing
`rename = "R"` fills the rename slot, neither recording any diagnostic. -/
theorem duplicate_option_last_wins_witness :
    ((processMeta exampleFromAState
          (NestedMeta.meta ⟨"from", ⟨3⟩, ⟨3⟩, MetaValue.str "B"⟩)).«from» =
        Option.some (Override.explicit "B") ∧
      (processMeta exampleFromAState
          (NestedMeta.meta ⟨"from", ⟨3⟩, ⟨3⟩, MetaValue.str "B"⟩)).errors =
        exampleFromAState.errors) ∧
    ((processMeta exampleFromAState
          (NestedMeta.meta ⟨"rename", ⟨4⟩, ⟨4⟩, MetaValue.str "R"⟩)).rename =
        Option.some (Override.explicit "R") ∧
      (processMeta exampleFromAState
          (NestedMeta.meta ⟨"rename", ⟨4⟩, ⟨4⟩, MetaValue.str "R"⟩)).errors =
        exampleFromAState.errors) :=
  ⟨(duplicate_option_last_wins exampleFromAState
      ⟨"from", ⟨3⟩, ⟨3⟩, MetaValue.str "B"⟩).1 (Override.explicit "B") rfl rfl,
   (duplicate_option_last_wins exampleFromAState
      ⟨"rename", ⟨4⟩, ⟨4⟩, MetaValue.str "R"⟩).2.1 (Override.explicit "R") rfl rfl⟩

theorem processAttr_foreign (st : LoopState) (a : Attribute)
    (h1 : a.pathIdent ≠ "env") (h2 : a.pathIdent ≠ "doc") :
    processAttr st a = st := by
  simp [processAttr, h1, h2]

/-- C10: an attribute whose namespace is neither `env` nor `doc` is silently
skipped: removing it from the attribute list changes neither the parsed
state (so no diagnostic and no documentation entry comes from it) nor the
resolved configuration. -/
theorem foreign_attrs_skipped (a : Attribute) (h1 : a.pathIdent ≠ "env")
    (h2 : a.pathIdent ≠ "doc") (ident : String) (ty : RsType)
    (pre post : List Attribute) :
    parseAttrs (pre ++ a :: post) = parseAttrs (pre ++ post) ∧
    from_field ⟨ident, ty, pre ++ a :: post⟩ = from_field ⟨ident, ty, pre ++ post⟩ := by
  have hp : parseAttrs (pre ++ a :: post) = parseAttrs (pre ++ post) := by
    unfold parseAttrs
    rw [List.foldl_append, List.foldl_append, List.foldl_cons,
      processAttr_foreign _ a h1 h2]
  exact ⟨hp, by unfold from_field; rw [hp]⟩

/-- C10 witness: dropping a `#[serde(...)]`-style attribute in front of a doc
attribute leaves parsing and resolution unchanged. -/
theorem foreign_attrs_skipped_witness :
    parseAttrs ([] ++ exampleForeignAttr :: exampleDocOnly.attrs) =
      parseAttrs ([] ++ exampleDocOnly.attrs) ∧
    from_field ⟨"api_key", RsType.other, [] ++ exampleForeignAttr :: exampleDocOnly.attrs⟩ =
      from_field ⟨"api_key", RsType.other, [] ++ exampleDocOnly.attrs⟩ :=
  foreign_attrs_skipped exampleForeignAttr (by decide) (by decide) "api_key"
    RsType.other [] exampleDocOnly.attrs

end FromEnv
